import Mathlib

/-
Verification of the layered configuration loader (core/base_util/config_util.py)
and the login token cache (core/protocol/login_handler.py) of the test_platform
repository, against its natural-language specification.

Modelling conventions:
- A configparser namespace is an insertion-ordered association list of sections,
  each section an insertion-ordered association list of string key/value pairs.
  Option-key lowercasing (optionxform) and value interpolation are abstracted:
  keys are taken as already normalized and values as literal.
- Fallible Python operations (configparser.get, add_section, items) are
  modelled with Except; mutation of class-level state is explicit state passing.
- Timestamps are integer seconds (Nat); DatetimeUtil.get_time_delta rounds a
  float difference to two decimals, which is the identity at integer-second
  time points, the granularity at which all claims are stated.
-/

set_option maxRecDepth 4096

/-- Association-list lookup (first match), modelling Python dict lookup
(keys are unique in every dict we build, so first match is the match). -/
def afind {κ α : Type} [DecidableEq κ] (k : κ) : List (κ × α) → Option α
  | [] => none
  | p :: rest => if p.1 = k then some p.2 else afind k rest

/-- Association-list write, modelling insertion-ordered Python dict update:
replace in place when the key exists, append otherwise. -/
def aset {κ α : Type} [DecidableEq κ] (k : κ) (v : α) : List (κ × α) → List (κ × α)
  | [] => [(k, v)]
  | p :: rest => if p.1 = k then (k, v) :: rest else p :: aset k v rest

/-- Left-biased choice on Option, used to state last-wins resolution. -/
def oor {α : Type} : Option α → Option α → Option α
  | some v, _ => some v
  | none, b => b

/-- One section of an INI file: ordered key/value pairs. -/
abbrev Sect := List (String × String)

/-- Parsed content of one INI file: ordered named sections. -/
abbrev IniFile := List (String × Sect)

/-- The in-memory configparser namespace. -/
abbrev Config := List (String × Sect)

/-- Errors raised by the modelled configparser operations. -/
inductive ConfigErr : Type where
  | noSection (s : String)
  | noOption (s : String) (key : String)
  | duplicateSection (s : String)
deriving DecidableEq, Repr

/-- Resolved value of (section, key): the accessor used to state merge
semantics. None when the section or the key is absent. -/
def resolve (cfg : Config) (s key : String) : Option String :=
  (afind s cfg).bind (afind key)

/-- Python configparser.has_section. -/
def hasSection (cfg : Config) (s : String) : Bool :=
  (afind s cfg).isSome

/-- Python configparser.get(section, key): raises NoSectionError when the
section is absent, NoOptionError when the key is absent. -/
def configGet (cfg : Config) (s key : String) : Except ConfigErr String :=
  match afind s cfg with
  | none => .error (.noSection s)
  | some sec =>
    match afind key sec with
    | none => .error (.noOption s key)
    | some v => .ok v

/-- Python configparser.set(section, key, value) at a call site where the
section is known to exist; modelled totally (creates the section otherwise),
which is observationally equal at every call site in the modelled module. -/
def setOpt (cfg : Config) (s key value : String) : Config :=
  aset s (aset key value ((afind s cfg).getD [])) cfg

/-- Python configparser.add_section: raises DuplicateSectionError when the
section already exists. -/
def add_section (cfg : Config) (s : String) : Except ConfigErr Config :=
  if hasSection cfg s then .error (.duplicateSection s)
  else .ok (cfg ++ [(s, [])])

/-- Registering a section found while reading a file (no error on duplicates
across files: the existing section is kept and extended). -/
def ensureSection (cfg : Config) (s : String) : Config :=
  if hasSection cfg s then cfg else cfg ++ [(s, [])]

/-- Writing a list of key/value pairs into one section, in order. -/
def writeItems (cfg : Config) (s : String) (items : Sect) : Config :=
  items.foldl (fun acc kv => setOpt acc s kv.1 kv.2) cfg

/-- Merging one section of a read file into the namespace. -/
def mergeSectInto (cfg : Config) (s : String) (items : Sect) : Config :=
  writeItems (ensureSection cfg s) s items

/-- Python configparser.read of a single existing file: each section of the
file is merged in order, later values overriding earlier ones per key. -/
def readOne (cfg : Config) (f : IniFile) : Config :=
  f.foldl (fun acc p => mergeSectInto acc p.1 p.2) cfg

/-- Python configparser.read over a path list: a path whose file does not
exist (modelled as none) is skipped without error. -/
def readMany (cfg : Config) (files : List (Option IniFile)) : Config :=
  files.foldl (fun acc of => match of with | some f => readOne acc f | none => acc) cfg

/-- Value of (section, key) inside a single parsed file. -/
def fileResolve (f : IniFile) (s key : String) : Option String :=
  (afind s f).bind (afind key)

/-- Spec-side definition (from the words of the specification, for the
refinement claim C5): the resolved value of (section, key) is the value from
the last source, in load order, in which the pair appears; absent files
contribute nothing. -/
def specLastWins (files : List (Option IniFile)) (s key : String) : Option String :=
  match files with
  | [] => none
  | of :: rest =>
    oor (specLastWins rest s key)
      (match of with | none => none | some f => fileResolve f s key)

/-- A file the strict configparser accepts: section names are unique in the
file and option keys are unique within each section (duplicates inside one
file raise DuplicateSectionError / DuplicateOptionError on read). -/
def wfFile (f : IniFile) : Prop :=
  (f.map Prod.fst).Nodup ∧ ∀ p ∈ f, (p.2.map Prod.fst).Nodup

/-- Well-formedness of an optional (possibly missing) file. -/
def wfOpt : Option IniFile → Prop
  | none => True
  | some f => wfFile f

instance (f : IniFile) : Decidable (wfFile f) := by
  unfold wfFile; infer_instance

instance (of : Option IniFile) : Decidable (wfOpt of) := by
  cases of <;> (unfold wfOpt; infer_instance)

/- ConfigUtil (core/base_util/config_util.py).  The class-level state
cls.config is passed explicitly; the filesystem contents reachable from the
well-known paths are collected in the FileSystem structure below. -/

namespace ConfigUtil

/-- ConfigUtil.get_value(key, section): cls.config.get(section, key); raises
for a missing section or key (it exposes no fallback parameter). -/
def get_value (cfg : Config) (key : String) (s : String) : Except ConfigErr String :=
  configGet cfg s key

/-- ConfigUtil.set_value(key, value, section): in-memory cls.config.set. -/
def set_value (cfg : Config) (key value : String) (s : String) : Config :=
  setOpt cfg s key value

/-- ConfigUtil.has_value(key, section): cls.config.has_option. -/
def has_value (cfg : Config) (key : String) (s : String) : Bool :=
  ((afind s cfg).bind (afind key)).isSome

/-- Lines 115-119 of get_config_from_env: initialize cls.config when it is
None and add the default section when absent. -/
def ensureDefault (st : Option Config) : Config :=
  if hasSection (st.getD []) "default" then st.getD []
  else st.getD [] ++ [("default", [])]

/-- Python str.strip() on a string: remove leading and trailing whitespace
characters (computed on the character list so that it evaluates inside the
kernel; the minor difference between the Python and Lean whitespace character
sets is immaterial to every claim). -/
def pyStrip (s : String) : String :=
  String.mk (((s.toList.dropWhile Char.isWhitespace).reverse.dropWhile
    Char.isWhitespace).reverse)

/-- Python str.split(sep) for a one-character separator: fragments between
occurrences of the separator; the empty string yields one empty fragment. -/
def pySplit (c : Char) (s : String) : List String :=
  (s.toList.foldr
    (fun ch acc =>
      match acc with
      | [] => [[ch]]
      | cur :: rest => if ch = c then [] :: cur :: rest else (ch :: cur) :: rest)
    [[]]).map String.mk

/-- Line 126 of get_config_from_env: split the override string on commas,
strip each fragment and drop the ones that are empty after stripping. -/
def stripItems (env_value : String) : List String :=
  ((pySplit ',' env_value).map pyStrip).filter (fun i => i ≠ "")

/-- Lines 129-137 of get_config_from_env: a fragment without an equals sign
is skipped; otherwise it is split at its first equals sign into a stripped
key and value; a fragment whose stripped key is empty is skipped. -/
def parseFrag (item : String) : Option (String × String) :=
  if item.toList.contains '=' then
    if pyStrip (String.mk (item.toList.takeWhile (fun c => c ≠ '='))) = "" then none
    else some
      (pyStrip (String.mk (item.toList.takeWhile (fun c => c ≠ '='))),
       pyStrip (String.mk ((item.toList.dropWhile (fun c => c ≠ '=')).drop 1)))
  else none

/-- One step of accumulating the kv dict of get_config_from_env. -/
def kvStep (acc : List (String × String)) (item : String) : List (String × String) :=
  match parseFrag item with
  | none => acc
  | some (k, v) => aset k v acc

/-- The kv dict built by get_config_from_env from the stripped fragments. -/
def buildKV (items : List String) : List (String × String) :=
  items.foldl kvStep []

/-- Lines 140-149 of get_config_from_env: pop the reserved zone_env entry;
when it is a non-empty section name that the external config has, copy that
whole section into default first; then write the remaining literal overrides
into default.  (Python truthiness: an empty zone_env value skips the copy.) -/
def applyOverrides (cfg : Config) (kv : List (String × String)) (ext_config : Config) : Config :=
  writeItems
    (match afind "zone_env" kv with
     | some z =>
       if z = "" then cfg
       else if hasSection ext_config z then
         writeItems cfg "default" ((afind z ext_config).getD [])
       else cfg
     | none => cfg)
    "default" (kv.filter (fun p => p.1 ≠ "zone_env"))

/-- ConfigUtil.get_config_from_env(env_value, config): ensures an initialized
config with a default section, returns early on an empty or whitespace-only
string, otherwise parses and applies the overrides. -/
def get_config_from_env (st : Option Config) (env_value : String) (ext_config : Config) : Config :=
  if pyStrip env_value = "" then ensureDefault st
  else applyOverrides (ensureDefault st) (buildKV (stripItems env_value)) ext_config

/-- ConfigUtil.get_zone: cls.config.get(base, zone). -/
def get_zone (cfg : Config) : Except ConfigErr String :=
  configGet cfg "base" "zone"

/-- ConfigUtil.get_product: cls.config.get(base, product). -/
def get_product (cfg : Config) : Except ConfigErr String :=
  configGet cfg "base" "product"

/-- ConfigUtil.get_env: cls.config.get(base, env). -/
def get_env (cfg : Config) : Except ConfigErr String :=
  configGet cfg "base" "env"

/-- ConfigUtil.get_zone_env: get_zone() + underscore + get_env(). -/
def get_zone_env (cfg : Config) : Except ConfigErr String := do
  let z ← get_zone cfg
  let e ← get_env cfg
  pure (z ++ "_" ++ e)

/-- The files reachable from the well-known configuration paths, plus the
customized_config environment variable.  A missing file is none.  The
product/zone/env path components computed by reload and hierarchical_load via
get_product/get_zone/get_env are abstracted into the named fields; the getter
calls themselves are kept for their failure effect. -/
structure FileSystem where
  baseFile : Option IniFile         -- config/env/env.ini
  defaultFile : Option IniFile      -- config/env/config_default.ini
  productDirExists : Bool           -- os.path.exists(config/env/product)
  productCommon : Option IniFile    -- product/common.ini
  zoneCommon : Option IniFile       -- product/zone/common.ini
  zoneEnv : Option IniFile          -- product/zone/env.ini
  legacyFile : Option IniFile       -- config/env/config_product.ini
  customized_config : Option String -- os.environ.get(customized_config)

/-- The namespace reload first builds: env.ini and config_default.ini read
over a fresh parser. -/
def baseNamespace (fs : FileSystem) : Config :=
  readMany [] [fs.baseFile, fs.defaultFile]

/-- ConfigUtil.hierarchical_load: reads product/common.ini, zone/common.ini
and env.ini over the current namespace, in that order (get_zone and get_env
are evaluated to build the paths and can raise). -/
def hierarchical_load (fs : FileSystem) (cfg : Config) : Except ConfigErr Config := do
  let _ ← get_zone cfg
  let _ ← get_env cfg
  pure (readMany cfg [fs.productCommon, fs.zoneCommon, fs.zoneEnv])

/-- ConfigUtil.legacy_load: adds the default section (DuplicateSectionError
when it already exists), reads the single legacy product file into a fresh
namespace, then either applies the customized_config overrides (when that
environment variable is set and non-empty) or copies the zone_env section of
the legacy file into default (NoSectionError when that section is absent). -/
def legacy_load (fs : FileSystem) (cfg : Config) : Except ConfigErr Config := do
  let cfg ← add_section cfg "default"
  if fs.customized_config.getD "" ≠ "" then
    pure (get_config_from_env (some cfg) (fs.customized_config.getD "")
      (readMany [] [fs.legacyFile]))
  else do
    let ze ← get_zone_env cfg
    match afind ze (readMany [] [fs.legacyFile]) with
    | none => .error (.noSection ze)
    | some items => pure (writeItems cfg "default" items)

/-- ConfigUtil.reload: reads env.ini and config_default.ini into a fresh
namespace, computes the product (which can raise), then loads the product
layers hierarchically when the product directory exists and through the
legacy path otherwise. -/
def reload (fs : FileSystem) : Except ConfigErr Config := do
  let _ ← get_product (baseNamespace fs)
  if fs.productDirExists then hierarchical_load fs (baseNamespace fs)
  else legacy_load fs (baseNamespace fs)

end ConfigUtil

/- LoginHandler (core/protocol/login_handler.py).  The class-level login_cache
dict is passed explicitly; each outbound HTTP POST is recorded in the returned
call list, and the response the identity provider would give to each endpoint
is supplied by the Provider structure. -/

/-- Minimal JSON values: everything res_data handling touches.  Python None
is null; numbers and arrays never occur in the handled fields. -/
inductive JVal : Type where
  | null
  | str (s : String)
  | obj (fields : List (String × JVal))

/-- Python str() of a JSON value, as used by f-string interpolation of
login_cache.get(refresh_token). -/
def JVal.pyStr : JVal → String
  | .null => "None"
  | .str s => s
  | .obj _ => "dict"

/-- Exceptions the handler code can raise. -/
inductive PyErr : Type where
  | attributeError (attr : String)
  | jsonDecodeError

/-- Python dict.get(k) on a JSON value: returns null for a missing key and
raises AttributeError when the receiver is not a dict (None.get, str.get). -/
def jget (v : JVal) (k : String) : Except PyErr JVal :=
  match v with
  | .obj fields => .ok ((afind k fields).getD .null)
  | _ => .error (.attributeError "get")

/-- Standard base64 alphabet. -/
def base64Alphabet : List Char :=
  "ABCDEFGHIJKLMNOPQRSTUVWXYZabcdefghijklmnopqrstuvwxyz0123456789+/".toList

/-- RFC 4648 base64 of a byte list, 3 bytes to 4 characters with padding. -/
def base64Bytes : List Nat → List Char
  | [] => []
  | [b0] =>
    [base64Alphabet.getD (b0 / 4) 'A',
     base64Alphabet.getD (b0 % 4 * 16) 'A', '=', '=']
  | [b0, b1] =>
    [base64Alphabet.getD (b0 / 4) 'A',
     base64Alphabet.getD (b0 % 4 * 16 + b1 / 16) 'A',
     base64Alphabet.getD (b1 % 16 * 4) 'A', '=']
  | b0 :: b1 :: b2 :: rest =>
    base64Alphabet.getD (b0 / 4) 'A' ::
    base64Alphabet.getD (b0 % 4 * 16 + b1 / 16) 'A' ::
    base64Alphabet.getD (b1 % 16 * 4 + b2 / 64) 'A' ::
    base64Alphabet.getD (b2 % 64) 'A' :: base64Bytes rest

/-- base64.b64encode of the UTF-8 encoding of a string, decoded back to str. -/
def base64Encode (s : String) : String :=
  String.mk (base64Bytes (s.toUTF8.toList.map UInt8.toNat))

/-- DatetimeUtil.get_time_delta(start, end) in whole seconds: the source
returns (end - start).total_seconds() rounded to two decimals, which at the
integer-second time points used here is exact; a clock that moved backwards
yields a negative delta in Python and 0 here, landing in the same branch of
every comparison against the non-negative refresh threshold. -/
def get_time_delta (start now : Nat) : Nat :=
  now - start

/-- The login_cache class attribute. -/
structure Cache : Type where
  create_time : Option Nat
  access_token : JVal
  refresh_token : JVal
  csrfToken : JVal

/-- The initial login_cache literal of the class body. -/
def initialCache : Cache :=
  ⟨none, .str "", .str "", .str ""⟩

/-- One outbound HTTP POST issued by the handler. -/
structure CallRec : Type where
  url : String
  headers : List (String × String)

/-- What requests.post would produce: a transport exception, or a response
with a status code and a body (none models text that json.loads rejects). -/
inductive HttpOutcome : Type where
  | exn
  | resp (status : Nat) (body : Option JVal)

/-- The identity provider: the outcome of a POST to the login URL and the
outcome of a POST to the refresh URL. -/
structure Provider : Type where
  loginResp : HttpOutcome
  refreshResp : HttpOutcome

/-- The configuration-derived class attributes of LoginHandler that
get_login_token and get_access_token read. -/
structure Handler : Type where
  login_host : String
  login_url : String
  refresh_login_url : String
  refresh_time : Nat
  user : String
  password : String

/-- The cls.account_name attribute lookup.  The class-body line that would
define account_name (line 41) is commented out and nothing else defines it,
so every evaluation of cls.account_name raises AttributeError. -/
def account_name : Except PyErr String :=
  .error (.attributeError "account_name")

/-- Result of one handler call: the returned value or the propagated
exception, the login_cache afterwards, and the HTTP calls issued. -/
structure TokenOutcome : Type where
  result : Except PyErr JVal
  cache : Cache
  calls : List CallRec

/-- json.loads(res.text). -/
def json_loads (body : Option JVal) : Except PyErr JVal :=
  match body with
  | none => .error .jsonDecodeError
  | some v => .ok v

/-- LoginHandler.get_login_token(login_type), lines 161-208.  The auth
headers are built, then the headers expression evaluates cls.account_name,
which raises AttributeError before requests.post runs; the remainder
(transport/status handling, body parsing, cache update) is modelled
faithfully although it is unreachable as the code stands. -/
def get_login_token (h : Handler) (cache : Cache) (prov : Provider)
    (login_type : String) (now : Nat) : TokenOutcome :=
  let user_password := h.user ++ ":" ++ h.password
  let encode_user_info := base64Encode user_password
  let login_auth := "Basic " ++ encode_user_info
  let refresh_auth := "Bearer " ++ cache.refresh_token.pyStr
  let call_url := if login_type = "refresh" then h.refresh_login_url else h.login_url
  let auth := if login_type = "refresh" then refresh_auth else login_auth
  match account_name with
  | .error e => ⟨.error e, cache, []⟩
  | .ok an =>
    let headers :=
      if an ≠ "" then [("Authorization", auth), ("X-Account-Name", an)]
      else [("Authorization", auth)]
    let login_url := h.login_host ++ call_url
    let call : CallRec := ⟨login_url, headers⟩
    match (if login_type = "refresh" then prov.refreshResp else prov.loginResp) with
    | .exn => ⟨.ok .null, cache, [call]⟩
    | .resp status body =>
      if status ≠ 200 then ⟨.ok .null, cache, [call]⟩
      else
        match json_loads body with
        | .error e => ⟨.error e, cache, [call]⟩
        | .ok res_data =>
          let access_tokenE :=
            if an ≠ "" then do jget (← jget res_data "data") "signedToken"
            else do jget (← jget (← jget res_data "data") "token") "access_token"
          match access_tokenE with
          | .error e => ⟨.error e, cache, [call]⟩
          | .ok access_token =>
            let refresh_tokenE :=
              if an ≠ "" then do jget (← jget res_data "data") "refreshToken"
              else do jget (← jget (← jget res_data "data") "token") "refresh_token"
            match refresh_tokenE with
            | .error e => ⟨.error e, cache, [call]⟩
            | .ok refresh_token =>
              ⟨.ok access_token,
               { cache with
                  access_token := access_token
                  refresh_token := refresh_token
                  create_time := some now },
               [call]⟩

/-- LoginHandler.get_access_token, lines 92-110: login when no record exists,
refresh when the record age strictly exceeds refresh_time, otherwise serve
the cached token with no provider call. -/
def get_access_token (h : Handler) (cache : Cache) (prov : Provider)
    (now : Nat) : TokenOutcome :=
  match cache.create_time with
  | none => get_login_token h cache prov "login" now
  | some token_create_time =>
    if get_time_delta token_create_time now > h.refresh_time then
      get_login_token h cache prov "refresh" now
    else
      ⟨.ok cache.access_token, cache, []⟩

/-- BaseTestException (core/base_util/exception_handler.py): carries a message
and a details mapping.  Cited by the error-taxonomy spec text of claim C3;
note that no AuthError subclass exists in that module and login_handler.py
neither imports nor raises any of these exception classes. -/
structure BaseTestException : Type where
  message : String
  details : List (String × String)

/-- The str() rendering of BaseTestException. -/
def BaseTestException.render (e : BaseTestException) : String :=
  if e.details ≠ [] then e.message ++ ". Details: dict" else e.message

/- LoginHandler.get_user_info (lines 81-90) returns copy.deepcopy of the
class-level user_info dict.  To state the frame property of claim C10 the
dict identity matters, so dicts live in an explicit heap of addressed cells
and user_info is an address; the stored values are flat strings, for which
deep and shallow copy coincide. -/

/-- A heap of dict cells plus the address of cls.user_info; next is the next
fresh address (every allocated address is below it). -/
structure DictHeap : Type where
  cells : List (Nat × List (String × String))
  user_info : Nat
  next : Nat

/-- Contents of the dict at an address (empty when unallocated). -/
def heapGet (st : DictHeap) (a : Nat) : List (String × String) :=
  (afind a st.cells).getD []

/-- LoginHandler.get_user_info: allocates a fresh dict holding a copy of the
user_info entries and returns its address; the stored dict is not aliased. -/
def get_user_info (st : DictHeap) : Nat × DictHeap :=
  (st.next,
   { cells := (st.next, heapGet st st.user_info) :: st.cells
     user_info := st.user_info
     next := st.next + 1 })

/-- A caller mutating one entry of the dict at address a. -/
def dictWrite (st : DictHeap) (a : Nat) (k v : String) : DictHeap :=
  { st with cells := aset a (aset k v (heapGet st a)) st.cells }

/-- A caller applying a whole sequence of entry mutations to address a. -/
def dictWriteAll (st : DictHeap) (a : Nat) (muts : List (String × String)) : DictHeap :=
  muts.foldl (fun acc kv => dictWrite acc a kv.1 kv.2) st

/-- A failed login or refresh attempt in the sense of claim C4: the provider
interaction selected by login_type is a transport exception or carries a
non-200 status. -/
def failedAttempt (prov : Provider) (login_type : String) : Prop :=
  (if login_type = "refresh" then prov.refreshResp else prov.loginResp) = .exn ∨
  ∃ (status : Nat) (body : Option JVal),
    (if login_type = "refresh" then prov.refreshResp else prov.loginResp)
      = .resp status body ∧ status ≠ 200

/- Concrete sample values used to instantiate the claim theorems. -/

/-- A handler with the default 900-second refresh threshold. -/
def sampleHandler : Handler :=
  ⟨"http://idp", "/login", "/refresh", 900, "alice", "pw"⟩

/-- A provider response body of the documented success shape. -/
def sampleBody : JVal :=
  .obj [("data", .obj [("token",
    .obj [("access_token", .str "tokA"), ("refresh_token", .str "tokR")])])]

/-- A provider that answers 200 with the documented body on both endpoints. -/
def sampleProvider : Provider :=
  ⟨.resp 200 (some sampleBody), .resp 200 (some sampleBody)⟩

/-- A provider that answers HTTP 500 on both endpoints. -/
def provider500 : Provider :=
  ⟨.resp 500 (some (.obj [])), .resp 500 (some (.obj []))⟩

/-- A cache holding a record created at time 0. -/
def staleCache : Cache :=
  ⟨some 0, .str "tok0", .str "refresh0", .str ""⟩

/-- A heap whose user_info dict sits at address 0. -/
def sampleHeap : DictHeap :=
  ⟨[(0, [("number", "7"), ("user", "alice"), ("password", "pw")])], 0, 1⟩

/-- A filesystem for the hierarchical loading path: base and default layers
plus one product-layer file, with overlapping keys across layers. -/
def fsHierSample : ConfigUtil.FileSystem :=
  { baseFile := some [("base", [("product", "p"), ("zone", "z"), ("env", "e")])]
    defaultFile := some [("d", [("k", "1")])]
    productDirExists := true
    productCommon := none
    zoneCommon := none
    zoneEnv := some [("d", [("k", "2")])]
    legacyFile := none
    customized_config := none }

/-- The namespace reload builds from fsHierSample. -/
def cfgHierSample : Config :=
  [("base", [("product", "p"), ("zone", "z"), ("env", "e")]), ("d", [("k", "2")])]

/-- A filesystem on the hierarchical path in which no merged file declares a
default section. -/
def fsNoDefault : ConfigUtil.FileSystem :=
  { baseFile := some [("base", [("product", "demo"), ("zone", "boe"), ("env", "test")])]
    defaultFile := none
    productDirExists := true
    productCommon := none
    zoneCommon := none
    zoneEnv := none
    legacyFile := none
    customized_config := none }

/-- The namespace reload builds from fsNoDefault. -/
def cfgNoDefault : Config :=
  [("base", [("product", "demo"), ("zone", "boe"), ("env", "test")])]

/-- A filesystem on the legacy loading path. -/
def fsLegacySample : ConfigUtil.FileSystem :=
  { baseFile := some [("base", [("product", "p"), ("zone", "z"), ("env", "e")])]
    defaultFile := none
    productDirExists := false
    productCommon := none
    zoneCommon := none
    zoneEnv := none
    legacyFile := some [("z_e", [("host", "h1")])]
    customized_config := none }

/-- The namespace reload builds from fsLegacySample. -/
def cfgLegacySample : Config :=
  [("base", [("product", "p"), ("zone", "z"), ("env", "e")]),
   ("default", [("host", "h1")])]

/- Generic lemmas about the association-list primitives. -/

theorem oor_none_right {α : Type} (a : Option α) : oor a none = a := by
  cases a <;> rfl

theorem oor_assoc {α : Type} (a b c : Option α) :
    oor (oor a b) c = oor a (oor b c) := by
  cases a <;> rfl

theorem afind_aset_self {κ α : Type} [DecidableEq κ] (k : κ) (v : α)
    (l : List (κ × α)) : afind k (aset k v l) = some v := by
  induction l with
  | nil => simp [afind, aset]
  | cons p rest ih =>
    by_cases h : p.1 = k
    · simp [aset, h, afind]
    · simp [aset, h, afind, ih]

theorem afind_aset_ne {κ α : Type} [DecidableEq κ] {k k₀ : κ} (hne : k₀ ≠ k)
    (v : α) (l : List (κ × α)) : afind k (aset k₀ v l) = afind k l := by
  induction l with
  | nil => simp [afind, aset, hne]
  | cons p rest ih =>
    by_cases h : p.1 = k₀
    · simp [aset, h, afind, hne]
    · simp [aset, h, afind, ih]

theorem afind_eq_none {κ α : Type} [DecidableEq κ] {k : κ} {l : List (κ × α)}
    (h : k ∉ l.map Prod.fst) : afind k l = none := by
  induction l with
  | nil => rfl
  | cons p rest ih =>
    simp only [List.map_cons, List.mem_cons, not_or] at h
    have hp : p.1 ≠ k := fun hh => h.1 hh.symm
    simp [afind, hp, ih h.2]

theorem afind_append {κ α : Type} [DecidableEq κ] (k : κ) (l₁ l₂ : List (κ × α)) :
    afind k (l₁ ++ l₂) = oor (afind k l₁) (afind k l₂) := by
  induction l₁ with
  | nil => simp [afind, oor]
  | cons p rest ih =>
    by_cases h : p.1 = k
    · simp [afind, h, oor]
    · simp [afind, h, ih]

/- Lemmas about the configparser model. -/

theorem resolve_setOpt_self (cfg : Config) (s k v : String) :
    resolve (setOpt cfg s k v) s k = some v := by
  unfold resolve setOpt
  rw [afind_aset_self]
  simp [afind_aset_self]

theorem resolve_setOpt_ne (cfg : Config) {s k s₀ k₀ : String}
    (h : s ≠ s₀ ∨ k ≠ k₀) (v : String) :
    resolve (setOpt cfg s₀ k₀ v) s k = resolve cfg s k := by
  by_cases hs : s = s₀
  · subst hs
    have hk : k ≠ k₀ := by
      rcases h with h | h
      · exact absurd rfl h
      · exact h
    unfold resolve setOpt
    rw [afind_aset_self]
    have hk' : k₀ ≠ k := Ne.symm hk
    cases hc : afind s cfg with
    | none => simp [afind_aset_ne hk', afind, hk']
    | some sec => simp [afind_aset_ne hk']
  · unfold resolve setOpt
    rw [afind_aset_ne (Ne.symm hs)]

theorem resolve_ensureSection (cfg : Config) (s₀ s k : String) :
    resolve (ensureSection cfg s₀) s k = resolve cfg s k := by
  unfold ensureSection
  by_cases h : hasSection cfg s₀ = true
  · simp [h]
  · simp only [h, ite_false, Bool.false_eq_true]
    unfold resolve
    rw [afind_append]
    cases hc : afind s cfg with
    | some sec => simp [oor]
    | none =>
      simp only [oor]
      by_cases hs : s₀ = s
      · simp [afind, hs, Option.bind]
      · simp [afind, hs]

theorem writeItems_cons (cfg : Config) (s : String) (p : String × String)
    (items : Sect) :
    writeItems cfg s (p :: items) = writeItems (setOpt cfg s p.1 p.2) s items := rfl

theorem resolve_writeItems (items : Sect) :
    ∀ (cfg : Config) (s₀ s k : String), (items.map Prod.fst).Nodup →
      resolve (writeItems cfg s₀ items) s k =
        if s = s₀ then oor (afind k items) (resolve cfg s k)
        else resolve cfg s k := by
  induction items with
  | nil =>
    intro cfg s₀ s k _
    by_cases hs : s = s₀ <;> simp [writeItems, afind, oor, hs]
  | cons p rest ih =>
    intro cfg s₀ s k hnd
    rw [List.map_cons, List.nodup_cons] at hnd
    obtain ⟨hnotin, hnd'⟩ := hnd
    rw [writeItems_cons, ih _ _ _ _ hnd']
    by_cases hs : s = s₀
    · subst hs
      simp only [if_pos rfl]
      by_cases hk : k = p.1
      · subst hk
        rw [resolve_setOpt_self, afind_eq_none hnotin]
        simp [afind, oor]
      · rw [resolve_setOpt_ne cfg (Or.inr hk)]
        have hpk : p.1 ≠ k := fun hh => hk hh.symm
        have hcons : afind k (p :: rest) = afind k rest := by
          simp [afind, hpk]
        rw [hcons]
    · simp only [if_neg hs]
      exact resolve_setOpt_ne cfg (Or.inl hs) p.2

theorem resolve_writeItems_absent {items : Sect} {k : String} :
    ∀ (cfg : Config) (s₀ s : String), afind k items = none →
      resolve (writeItems cfg s₀ items) s k = resolve cfg s k := by
  induction items with
  | nil => intro cfg s₀ s _; rfl
  | cons p rest ih =>
    intro cfg s₀ s h
    unfold afind at h
    by_cases hp : p.1 = k
    · simp [hp] at h
    · simp only [if_neg hp] at h
      rw [writeItems_cons, ih _ _ _ h]
      exact resolve_setOpt_ne cfg (Or.inr fun hh => hp hh.symm) p.2

theorem hasSection_setOpt_of {cfg : Config} {s : String}
    (h : hasSection cfg s = true) (s₀ k v : String) :
    hasSection (setOpt cfg s₀ k v) s = true := by
  unfold hasSection setOpt at *
  by_cases hs : s₀ = s
  · subst hs; rw [afind_aset_self]; rfl
  · rw [afind_aset_ne hs]; exact h

theorem hasSection_writeItems_of (s₀ : String) (items : Sect) :
    ∀ {cfg : Config} {s : String}, hasSection cfg s = true →
      hasSection (writeItems cfg s₀ items) s = true := by
  induction items with
  | nil => intro cfg s h; exact h
  | cons p rest ih =>
    intro cfg s h
    rw [writeItems_cons]
    exact ih (hasSection_setOpt_of h s₀ p.1 p.2)

theorem hasSection_append_self (cfg : Config) (s : String) :
    hasSection (cfg ++ [(s, [])]) s = true := by
  unfold hasSection
  rw [afind_append]
  cases hc : afind s cfg with
  | none => simp [oor, afind]
  | some v => simp [oor]

theorem hasSection_ensureDefault (st : Option Config) :
    hasSection (ConfigUtil.ensureDefault st) "default" = true := by
  unfold ConfigUtil.ensureDefault
  by_cases h : hasSection (st.getD []) "default" = true
  · simp [h]
  · simp only [h, ite_false, Bool.false_eq_true]
    exact hasSection_append_self _ _

theorem hasSection_applyOverrides_of {cfg : Config}
    (h : hasSection cfg "default" = true) (kv : List (String × String))
    (ext_config : Config) :
    hasSection (ConfigUtil.applyOverrides cfg kv ext_config) "default" = true := by
  unfold ConfigUtil.applyOverrides
  apply hasSection_writeItems_of
  cases hz : afind "zone_env" kv with
  | none => exact h
  | some z =>
    by_cases h1 : z = ""
    · simpa [h1] using h
    · by_cases h2 : hasSection ext_config z = true
      · simp only [h1, h2, ite_false, ite_true]
        exact hasSection_writeItems_of _ _ h
      · simpa [h1, h2] using h

theorem hasSection_get_config_from_env (st : Option Config) (env_value : String)
    (ext_config : Config) :
    hasSection (ConfigUtil.get_config_from_env st env_value ext_config) "default"
      = true := by
  unfold ConfigUtil.get_config_from_env
  by_cases h : ConfigUtil.pyStrip env_value = ""
  · simp [h, hasSection_ensureDefault]
  · simp [h, hasSection_applyOverrides_of (hasSection_ensureDefault st)]

theorem resolve_mergeSectInto (s₀ : String) (items : Sect)
    (hnd : (items.map Prod.fst).Nodup) (cfg : Config) (s k : String) :
    resolve (mergeSectInto cfg s₀ items) s k =
      if s = s₀ then oor (afind k items) (resolve cfg s k)
      else resolve cfg s k := by
  unfold mergeSectInto
  rw [resolve_writeItems _ _ _ _ _ hnd]
  by_cases hs : s = s₀ <;> simp [hs, resolve_ensureSection]

theorem readOne_cons (cfg : Config) (p : String × Sect) (rest : IniFile) :
    readOne cfg (p :: rest) = readOne (mergeSectInto cfg p.1 p.2) rest := rfl

theorem resolve_readOne (f : IniFile) :
    ∀ (cfg : Config) (s k : String), wfFile f →
      resolve (readOne cfg f) s k = oor (fileResolve f s k) (resolve cfg s k) := by
  induction f with
  | nil => intro cfg s k _; simp [readOne, fileResolve, afind, oor]
  | cons p rest ih =>
    intro cfg s k hwf
    obtain ⟨hsec, hkeys⟩ := hwf
    rw [List.map_cons, List.nodup_cons] at hsec
    obtain ⟨hnot, hsec'⟩ := hsec
    have hwf' : wfFile rest := ⟨hsec', fun q hq => hkeys q (List.mem_cons_of_mem _ hq)⟩
    have hpnd : (p.2.map Prod.fst).Nodup := hkeys p (List.mem_cons_self _ _)
    rw [readOne_cons, ih _ _ _ hwf', resolve_mergeSectInto p.1 p.2 hpnd]
    by_cases hs : s = p.1
    · subst hs
      have hfr : fileResolve rest p.1 k = none := by
        unfold fileResolve
        rw [afind_eq_none hnot]
        rfl
      have hcons : fileResolve (p :: rest) p.1 k = afind k p.2 := by
        unfold fileResolve
        simp [afind]
      rw [hfr, hcons]
      simp [oor]
    · have hps : p.1 ≠ s := fun hh => hs hh.symm
      have hcons : fileResolve (p :: rest) s k = fileResolve rest s k := by
        unfold fileResolve
        simp [afind, hps]
      rw [hcons]
      simp only [if_neg hs]

theorem resolve_readMany (files : List (Option IniFile)) :
    ∀ (cfg : Config) (s k : String), (∀ of ∈ files, wfOpt of) →
      resolve (readMany cfg files) s k =
        oor (specLastWins files s k) (resolve cfg s k) := by
  induction files with
  | nil => intro cfg s k _; simp [readMany, specLastWins, oor]
  | cons of rest ih =>
    intro cfg s k hwf
    have hof := hwf of (List.mem_cons_self _ _)
    have hrest : ∀ x ∈ rest, wfOpt x := fun x hx => hwf x (List.mem_cons_of_mem _ hx)
    cases of with
    | none =>
      rw [show readMany cfg (none :: rest) = readMany cfg rest from rfl]
      rw [ih _ _ _ hrest]
      rw [show specLastWins (none :: rest) s k
            = oor (specLastWins rest s k) none from rfl]
      rw [oor_none_right]
    | some f =>
      rw [show readMany cfg (some f :: rest) = readMany (readOne cfg f) rest from rfl]
      rw [ih _ _ _ hrest, resolve_readOne f _ _ _ hof]
      rw [show specLastWins (some f :: rest) s k
            = oor (specLastWins rest s k) (fileResolve f s k) from rfl]
      rw [oor_assoc]

theorem readMany_append (cfg : Config) (l₁ l₂ : List (Option IniFile)) :
    readMany cfg (l₁ ++ l₂) = readMany (readMany cfg l₁) l₂ := by
  unfold readMany
  rw [List.foldl_append]

/- Lemmas about reload and its two loading paths. -/

theorem add_section_ok {cfg cfg' : Config} {s : String}
    (h : add_section cfg s = .ok cfg') : cfg' = cfg ++ [(s, [])] := by
  unfold add_section at h
  by_cases hs : hasSection cfg s = true
  · simp [hs] at h
  · simp only [hs, ite_false, Bool.false_eq_true, Except.ok.injEq] at h
    exact h.symm

theorem reload_hier {fs : ConfigUtil.FileSystem} {cfg : Config}
    (hp : fs.productDirExists = true) (h : ConfigUtil.reload fs = .ok cfg) :
    cfg = readMany []
      [fs.baseFile, fs.defaultFile, fs.productCommon, fs.zoneCommon, fs.zoneEnv] := by
  unfold ConfigUtil.reload at h
  cases hgp : ConfigUtil.get_product (ConfigUtil.baseNamespace fs) with
  | error e => rw [hgp] at h; simp [Bind.bind, Except.bind] at h
  | ok prod =>
    rw [hgp] at h
    simp only [Bind.bind, Except.bind, hp, ite_true] at h
    unfold ConfigUtil.hierarchical_load at h
    cases hgz : ConfigUtil.get_zone (ConfigUtil.baseNamespace fs) with
    | error e => rw [hgz] at h; simp [Bind.bind, Except.bind] at h
    | ok z =>
      rw [hgz] at h
      simp only [Bind.bind, Except.bind] at h
      cases hge : ConfigUtil.get_env (ConfigUtil.baseNamespace fs) with
      | error e => rw [hge] at h; simp at h
      | ok e =>
        rw [hge] at h
        simp only [pure, Except.pure, Except.ok.injEq] at h
        rw [← h]
        rw [show ([fs.baseFile, fs.defaultFile, fs.productCommon, fs.zoneCommon,
              fs.zoneEnv] : List (Option IniFile))
            = [fs.baseFile, fs.defaultFile]
              ++ [fs.productCommon, fs.zoneCommon, fs.zoneEnv] from rfl]
        rw [readMany_append]
        rfl

theorem reload_legacy_shape {fs : ConfigUtil.FileSystem} {cfg : Config}
    (hp : fs.productDirExists = false) (h : ConfigUtil.reload fs = .ok cfg) :
    ∃ cfg₁ : Config, hasSection cfg₁ "default" = true ∧
      ((∃ env_value : String,
          cfg = ConfigUtil.get_config_from_env (some cfg₁) env_value
                  (readMany [] [fs.legacyFile])) ∨
       (∃ items : Sect, cfg = writeItems cfg₁ "default" items)) := by
  unfold ConfigUtil.reload at h
  cases hgp : ConfigUtil.get_product (ConfigUtil.baseNamespace fs) with
  | error e => rw [hgp] at h; simp [Bind.bind, Except.bind] at h
  | ok prod =>
    rw [hgp] at h
    simp only [Bind.bind, Except.bind, hp, ite_false, Bool.false_eq_true] at h
    unfold ConfigUtil.legacy_load at h
    cases has : add_section (ConfigUtil.baseNamespace fs) "default" with
    | error e => rw [has] at h; simp [Bind.bind, Except.bind] at h
    | ok cfg₁ =>
      rw [has] at h
      simp only [Bind.bind, Except.bind] at h
      refine ⟨cfg₁, ?_, ?_⟩
      · rw [add_section_ok has]
        exact hasSection_append_self _ _
      · by_cases hc : fs.customized_config.getD "" ≠ ""
        · rw [if_pos hc] at h
          simp only [pure, Except.pure, Except.ok.injEq] at h
          exact Or.inl ⟨fs.customized_config.getD "", h.symm⟩
        · rw [if_neg hc] at h
          cases hze : ConfigUtil.get_zone_env cfg₁ with
          | error e => rw [hze] at h; simp [Bind.bind, Except.bind] at h
          | ok ze =>
            rw [hze] at h
            simp only [Bind.bind, Except.bind] at h
            cases hfind : afind ze (readMany [] [fs.legacyFile]) with
            | none => rw [hfind] at h; simp at h
            | some items =>
              rw [hfind] at h
              simp only [pure, Except.pure, Except.ok.injEq] at h
              exact Or.inr ⟨items, h.symm⟩

/- Lemmas about the override dict of get_config_from_env. -/

theorem afind_filter_ne {k : String} (hk : k ≠ "zone_env") :
    ∀ (kv : List (String × String)),
      afind k (kv.filter (fun p => p.1 ≠ "zone_env")) = afind k kv := by
  intro kv
  induction kv with
  | nil => rfl
  | cons p rest ih =>
    by_cases hp : p.1 = "zone_env"
    · have hpk : p.1 ≠ k := fun hh => hk (hh ▸ hp)
      rw [List.filter_cons_of_neg (by simp [hp])]
      rw [show afind k (p :: rest) = afind k rest from by simp [afind, hpk]]
      simpa using ih
    · rw [List.filter_cons_of_pos (by simp [hp])]
      unfold afind
      by_cases hpk : p.1 = k
      · simp [hpk]
      · simp only [hpk, ite_false]
        simpa using ih

theorem afind_filter_self (kv : List (String × String)) :
    afind "zone_env" (kv.filter (fun p => p.1 ≠ "zone_env")) = none := by
  induction kv with
  | nil => rfl
  | cons p rest ih =>
    by_cases hp : p.1 = "zone_env"
    · rw [List.filter_cons_of_neg (by simp [hp])]
      exact ih
    · rw [List.filter_cons_of_pos (by simp [hp])]
      unfold afind
      simp only [hp, ite_false]
      simpa using ih

theorem nodup_filter_keys {kv : List (String × String)}
    (h : (kv.map Prod.fst).Nodup) :
    ((kv.filter (fun p => p.1 ≠ "zone_env")).map Prod.fst).Nodup := by
  exact List.Nodup.sublist (List.Sublist.map Prod.fst (List.filter_sublist kv)) h

/- Lemmas about the dict heap of get_user_info. -/

theorem heapGet_dictWrite_ne {st : DictHeap} {a b : Nat} (hne : a ≠ b)
    (k v : String) : heapGet (dictWrite st a k v) b = heapGet st b := by
  unfold heapGet dictWrite
  simp [afind_aset_ne hne]

theorem heapGet_dictWriteAll_ne (muts : List (String × String)) :
    ∀ {st : DictHeap} {a b : Nat}, a ≠ b →
      heapGet (dictWriteAll st a muts) b = heapGet st b := by
  induction muts with
  | nil => intro st a b _; rfl
  | cons m rest ih =>
    intro st a b hne
    rw [show dictWriteAll st a (m :: rest)
          = dictWriteAll (dictWrite st a m.1 m.2) a rest from rfl]
    rw [ih hne, heapGet_dictWrite_ne hne]

/- The claim theorems. -/

/-- C1 (code evaluation for the code_bug finding): for every starting state
whose cache has no record (create_time is None), get_access_token does not
perform a login call, does not store anything, and does not return a token:
it raises AttributeError on the undefined account_name class attribute before
any HTTP request, leaving the cache unchanged and the call list empty — the
claimed login-and-cache behaviour never happens. -/
theorem C1_initial_fetch_attribute_error (h : Handler) (cache : Cache)
    (prov : Provider) (now : Nat) (hct : cache.create_time = none) :
    get_access_token h cache prov now
      = ⟨.error (.attributeError "account_name"), cache, []⟩ := by
  unfold get_access_token
  rw [hct]
  rfl

/-- Witness for C1 at the initial cache and a well-behaved provider. -/
theorem C1_witness :
    get_access_token sampleHandler initialCache sampleProvider 5
      = ⟨.error (.attributeError "account_name"), initialCache, []⟩ :=
  C1_initial_fetch_attribute_error sampleHandler initialCache sampleProvider 5 rfl

/-- C2 counterexample: with the 900-second threshold and a record created at
time 0, the call at time 900 has age exactly equal to refresh_threshold,
yet the stored access token is returned directly with zero provider calls,
contradicting the claim that a record of age at least the threshold is never
served directly. -/
theorem C2_counterexample :
    sampleHandler.refresh_time ≤ get_time_delta 0 900 ∧
    get_access_token sampleHandler staleCache sampleProvider 900
      = ⟨.ok staleCache.access_token, staleCache, []⟩ :=
  ⟨by decide, rfl⟩

/-- C2 (amended): the cached token is served without any provider call
exactly when the record age is at most refresh_threshold_seconds (the source
comparison is strict); only when the age strictly exceeds the threshold does
get_access_token leave the cached-token path — and then the stored token is
not returned (as the code stands the refresh attempt fails with
AttributeError before any request, per the account_name defect of C1). -/
theorem C2_refresh_boundary (h : Handler) (cache : Cache) (prov : Provider)
    (now t : Nat) (hct : cache.create_time = some t) :
    (get_time_delta t now ≤ h.refresh_time →
        get_access_token h cache prov now = ⟨.ok cache.access_token, cache, []⟩) ∧
    (h.refresh_time < get_time_delta t now →
        get_access_token h cache prov now
          = ⟨.error (.attributeError "account_name"), cache, []⟩) := by
  constructor
  · intro hle
    unfold get_access_token
    simp only [hct]
    rw [if_neg (Nat.not_lt.mpr hle)]
  · intro hlt
    unfold get_access_token
    simp only [hct]
    rw [if_pos hlt]
    rfl

/-- Witness for C2 at ages 100 (served from cache) and 1000 (refresh path). -/
theorem C2_witness :
    get_access_token sampleHandler staleCache sampleProvider 100
      = ⟨.ok staleCache.access_token, staleCache, []⟩ ∧
    get_access_token sampleHandler staleCache sampleProvider 1000
      = ⟨.error (.attributeError "account_name"), staleCache, []⟩ :=
  ⟨(C2_refresh_boundary sampleHandler staleCache sampleProvider 100 0 rfl).1
      (by decide),
   (C2_refresh_boundary sampleHandler staleCache sampleProvider 1000 0 rfl).2
      (by decide)⟩

/-- C3 counterexample: with a provider that would answer HTTP 500 to the
login endpoint, get_access_token on a fresh cache fails with AttributeError
on the undefined account_name attribute — no AuthError (no such class exists
in the codebase) and no message-and-details exception is raised. -/
theorem C3_counterexample :
    get_access_token sampleHandler initialCache provider500 0
      = ⟨.error (.attributeError "account_name"), initialCache, []⟩ := rfl

/-- C3 (amended): as the code stands, every token fetch — login or refresh,
whatever the provider would answer — fails with AttributeError on the
undefined account_name attribute before any provider call, with the cache
untouched; no AuthError is ever raised (the failure handling of
get_login_token, were it reached, logs and returns None rather than
raising), and nothing is retried inside the handler. -/
theorem C3_no_auth_error (h : Handler) (cache : Cache) (prov : Provider)
    (login_type : String) (now : Nat) :
    get_login_token h cache prov login_type now
      = ⟨.error (.attributeError "account_name"), cache, []⟩ := rfl

/-- C4: for every starting cache state, a failed login or refresh attempt
(transport exception or non-200 status) leaves every field of the cached
token record unchanged — in particular a cache with no record stays without
a record.  (As the code stands this holds a fortiori: the attempt fails
before the request and no code path that writes the cache is reached.) -/
theorem C4_failed_attempt_preserves_cache (h : Handler) (cache : Cache)
    (prov : Provider) (login_type : String) (now : Nat)
    (_hfail : failedAttempt prov login_type) :
    (get_login_token h cache prov login_type now).cache = cache := rfl

/-- Witness for C4: a 500 answer on the refresh endpoint, starting from a
populated cache. -/
theorem C4_witness :
    (get_login_token sampleHandler staleCache provider500 "refresh" 1000).cache
      = staleCache :=
  C4_failed_attempt_preserves_cache sampleHandler staleCache provider500
    "refresh" 1000 (Or.inr ⟨500, some (.obj []), rfl, by decide⟩)

/-- C5: for the hierarchical loading order (base file, default file, then
product/common.ini, product/zone/common.ini, product/zone/env.ini), whenever
reload completes, the resolved value of every (section, key) equals the value
from the last source, in load order, in which the pair appears; missing files
are skipped without error (a missing file is none in the source list and
reload still succeeds). -/
theorem C5_last_wins (fs : ConfigUtil.FileSystem) (cfg : Config) (s k : String)
    (hwf : ∀ of ∈ [fs.baseFile, fs.defaultFile, fs.productCommon,
        fs.zoneCommon, fs.zoneEnv], wfOpt of)
    (hp : fs.productDirExists = true)
    (h : ConfigUtil.reload fs = .ok cfg) :
    resolve cfg s k = specLastWins [fs.baseFile, fs.defaultFile,
      fs.productCommon, fs.zoneCommon, fs.zoneEnv] s k := by
  rw [reload_hier hp h]
  rw [resolve_readMany _ _ _ _ hwf]
  rw [show resolve ([] : Config) s k = none from rfl]
  rw [oor_none_right]

/-- Witness for C5: a concrete filesystem in which (d, k) appears in the
default-file layer and again in the zone/env layer, whose value wins. -/
theorem C5_witness :
    resolve cfgHierSample "d" "k" =
      specLastWins [fsHierSample.baseFile, fsHierSample.defaultFile,
        fsHierSample.productCommon, fsHierSample.zoneCommon,
        fsHierSample.zoneEnv] "d" "k" :=
  C5_last_wins fsHierSample cfgHierSample "d" "k" (by decide) rfl rfl

/-- C6 counterexample: get_value exposes no fallback and raises for a missing
section and for a missing key, contradicting the claim that the getter
returns a fallback and never raises. -/
theorem C6_counterexample :
    ConfigUtil.get_value [] "host" "default" = .error (.noSection "default") ∧
    ConfigUtil.get_value [("default", [])] "host" "default"
      = .error (.noOption "default" "host") :=
  ⟨rfl, rfl⟩

/-- C6 (amended): get_value(key, section) takes no fallback argument; it
returns the resolved value exactly when the (section, key) pair is present,
and raises (NoSectionError or NoOptionError) exactly when the pair is
absent. -/
theorem C6_get_value_semantics (cfg : Config) (key s : String) :
    (∀ v, ConfigUtil.get_value cfg key s = .ok v ↔ resolve cfg s key = some v) ∧
    (resolve cfg s key = none →
      ∃ err, ConfigUtil.get_value cfg key s = .error err) := by
  unfold ConfigUtil.get_value configGet resolve
  cases hs : afind s cfg with
  | none => simp
  | some sec =>
    cases hk : afind key sec with
    | none => simp [hk]
    | some v => simp [hk]

/-- Witness for C6: the amended characterization applied at a concrete
configuration with the key absent. -/
theorem C6_witness :
    ∃ err, ConfigUtil.get_value [("default", [])] "missing" "default"
      = .error err :=
  (C6_get_value_semantics [("default", [])] "missing" "default").2 rfl

/-- C8 counterexample: on the hierarchical path with no merged file declaring
a default section, reload completes and the resulting namespace has no
default section, contradicting the claimed invariant. -/
theorem C8_counterexample :
    ConfigUtil.reload fsNoDefault = .ok cfgNoDefault ∧
    hasSection cfgNoDefault "default" = false :=
  ⟨rfl, rfl⟩

/-- C8 (amended): on the legacy loading path a default section always exists
after reload completes (legacy_load adds it explicitly); on the hierarchical
path it exists only when one of the merged files declares it. -/
theorem C8_legacy_default (fs : ConfigUtil.FileSystem) (cfg : Config)
    (hp : fs.productDirExists = false) (h : ConfigUtil.reload fs = .ok cfg) :
    hasSection cfg "default" = true := by
  obtain ⟨cfg₁, hdef, hcase⟩ := reload_legacy_shape hp h
  rcases hcase with ⟨env_value, rfl⟩ | ⟨items, rfl⟩
  · exact hasSection_get_config_from_env _ _ _
  · exact hasSection_writeItems_of _ _ hdef

/-- Witness for C8 on a concrete legacy-path filesystem. -/
theorem C8_witness : hasSection cfgLegacySample "default" = true :=
  C8_legacy_default fsLegacySample cfgLegacySample rfl rfl

/-- C9: for every configuration on which the base getters succeed (a valid
base configuration), get_zone_env returns exactly the zone, an underscore,
and the env concatenated. -/
theorem C9_zone_env_concat (cfg : Config) (z e : String)
    (hz : ConfigUtil.get_zone cfg = .ok z)
    (he : ConfigUtil.get_env cfg = .ok e) :
    ConfigUtil.get_zone_env cfg = .ok (z ++ "_" ++ e) := by
  unfold ConfigUtil.get_zone_env
  rw [hz]
  simp only [Bind.bind, Except.bind]
  rw [he]
  rfl

/-- Witness for C9 at a concrete configuration. -/
theorem C9_witness : ConfigUtil.get_zone_env cfgHierSample = .ok "z_e" :=
  C9_zone_env_concat cfgHierSample "z" "e" rfl rfl

/-- C10: get_user_info returns a copy: the returned dict has the same
contents as the stored user_info dict, and after any sequence of mutations a
caller applies to the returned dict, the stored user_info dict is
unchanged. -/
theorem C10_user_info_isolated (st : DictHeap) (muts : List (String × String))
    (hwf : st.user_info < st.next) :
    heapGet (dictWriteAll (get_user_info st).2 (get_user_info st).1 muts)
        st.user_info = heapGet st st.user_info ∧
    heapGet (get_user_info st).2 (get_user_info st).1
      = heapGet st st.user_info := by
  have hne : st.next ≠ st.user_info := Ne.symm (Nat.ne_of_lt hwf)
  constructor
  · show heapGet (dictWriteAll (get_user_info st).2 st.next muts)
        st.user_info = heapGet st st.user_info
    rw [heapGet_dictWriteAll_ne muts hne]
    simp [heapGet, get_user_info, afind, hne]
  · simp [heapGet, get_user_info, afind]

/-- Witness for C10: mutating the copied dict does not change the stored
credentials. -/
theorem C10_witness :
    heapGet (dictWriteAll (get_user_info sampleHeap).2
        (get_user_info sampleHeap).1 [("password", "changed")])
      sampleHeap.user_info = heapGet sampleHeap sampleHeap.user_info :=
  (C10_user_info_isolated sampleHeap [("password", "changed")] (by decide)).1

/-- C7 counterexample: an empty override string does not leave the
configuration unchanged — before the empty-string early return the function
creates the default section, so an initialized configuration with no
sections gains one. -/
theorem C7_counterexample :
    ConfigUtil.get_config_from_env (some []) "" [] = [("default", [])] ∧
    [("default", [])] ≠ ([] : Config) :=
  ⟨rfl, by decide⟩

/-- C7 (amended): the override string is split on commas; each fragment is
split at its first equals sign; fragments with no equals sign or an empty
stripped key are silently skipped; an empty or whitespace-only string leaves
every existing section and value unchanged, except that an uninitialized
configuration is initialized and a missing default section is created; a
non-empty reserved zone_env entry naming a section of the external config is
removed from the override set and makes that whole section get copied into
default before the remaining literal overrides are written (so a literal
override wins over a copied value); the zone_env key itself is never written
from the override set (it can only enter default if the copied external
section itself contains a zone_env key, which the last component excludes by
hypothesis). -/
theorem C7_override_parsing :
    (∀ (st : Option Config) (ext_config : Config) (env_value : String),
        ConfigUtil.pyStrip env_value = "" →
        ConfigUtil.get_config_from_env st env_value ext_config
          = ConfigUtil.ensureDefault st) ∧
    (∀ (items : List String) (item : String), ConfigUtil.parseFrag item = none →
        ConfigUtil.buildKV (items ++ [item]) = ConfigUtil.buildKV items) ∧
    ConfigUtil.parseFrag "host" = none ∧
    ConfigUtil.parseFrag " =value" = none ∧
    ConfigUtil.parseFrag " a = b=c " = some ("a", "b=c") ∧
    (∀ (cfg ext_config : Config) (kv : List (String × String)) (z : String),
        afind "zone_env" kv = some z → z ≠ "" → hasSection ext_config z = true →
        ConfigUtil.applyOverrides cfg kv ext_config =
          writeItems (writeItems cfg "default" ((afind z ext_config).getD []))
            "default" (kv.filter (fun p => p.1 ≠ "zone_env"))) ∧
    (∀ (cfg ext_config : Config) (kv : List (String × String)) (k v : String),
        (kv.map Prod.fst).Nodup → k ≠ "zone_env" → afind k kv = some v →
        resolve (ConfigUtil.applyOverrides cfg kv ext_config) "default" k
          = some v) ∧
    (∀ (cfg ext_config : Config) (kv : List (String × String)),
        resolve cfg "default" "zone_env" = none →
        (∀ z items, afind z ext_config = some items →
            afind "zone_env" items = none) →
        resolve (ConfigUtil.applyOverrides cfg kv ext_config) "default"
          "zone_env" = none) := by
  refine ⟨?_, ?_, by decide, by decide, by decide, ?_, ?_, ?_⟩
  · intro st ext_config env_value h
    unfold ConfigUtil.get_config_from_env
    simp [h]
  · intro items item hpf
    unfold ConfigUtil.buildKV
    rw [List.foldl_append]
    simp only [List.foldl_cons, List.foldl_nil]
    unfold ConfigUtil.kvStep
    rw [hpf]
  · intro cfg ext_config kv z hz h1 h2
    unfold ConfigUtil.applyOverrides
    rw [hz]
    dsimp only
    rw [if_neg h1, if_pos h2]
  · intro cfg ext_config kv k v hnd hk hfound
    unfold ConfigUtil.applyOverrides
    rw [resolve_writeItems _ _ _ _ _ (nodup_filter_keys hnd)]
    rw [if_pos rfl]
    rw [afind_filter_ne hk kv, hfound]
    rfl
  · intro cfg ext_config kv h hext
    unfold ConfigUtil.applyOverrides
    rw [resolve_writeItems_absent _ _ _ (afind_filter_self kv)]
    cases hz : afind "zone_env" kv with
    | none => exact h
    | some z =>
      dsimp only
      by_cases h1 : z = ""
      · rw [if_pos h1]
        exact h
      · rw [if_neg h1]
        by_cases h2 : hasSection ext_config z = true
        · rw [if_pos h2]
          cases hfind : afind z ext_config with
          | none =>
            unfold hasSection at h2
            rw [hfind] at h2
            simp at h2
          | some items =>
            rw [show ((some items).getD [] : Sect) = items from rfl]
            rw [resolve_writeItems_absent _ _ _ (hext z items hfind)]
            exact h
        · rw [if_neg h2]
          exact h

/-- Witness for C7: an empty string only ensures the default section, and a
concrete override list with a zone_env copy where the literal override
wins. -/
theorem C7_witness :
    ConfigUtil.get_config_from_env (some [("x", [])]) "   " []
      = ConfigUtil.ensureDefault (some [("x", [])]) ∧
    resolve (ConfigUtil.applyOverrides [("default", [])]
        [("zone_env", "s"), ("a", "1")] [("s", [("x", "9"), ("a", "0")])])
      "default" "a" = some "1" :=
  ⟨C7_override_parsing.1 (some [("x", [])]) [] "   " (by decide),
   C7_override_parsing.2.2.2.2.2.2.1 [("default", [])]
     [("s", [("x", "9"), ("a", "0")])] [("zone_env", "s"), ("a", "1")]
     "a" "1" (by decide) (by decide) (by decide)⟩
